import Mathlib

/-!
# PackageKit-Qt client facade (`lib/packagekit-qt/src/client.cpp`)

A shallow embedding of the `Client` class of the Qt binding: the daemon-wide
getters that decode `;`-delimited wire strings, the transaction-starting
operations, the desktop-file lookup and the `instance()` accessor.

Conventions of the embedding.
* Enum members and `QFlags` values are natural numbers (bit patterns).
* Pointers to heap objects are their value (`Package`) or a handle (`Transaction`).
* Everything the class does to the outside (signals emitted, D-Bus role calls,
  requests for a new transaction) is appended, in program order, to a trace.
* Code of the repository that is not part of the translated file (`Util`,
  `ClientPrivate`, the enum tables of `client.h`) is a parameter, or a small
  definition marked as modelled.
-/

set_option autoImplicit false
set_option linter.dupNamespace false

namespace PackageKit

/-! ## Qt containers -/

/-- Pieces of a character list between occurrences of `sep`; empty pieces are kept. -/
def splitChars (sep : Char) : List Char → List (List Char)
  | [] => [[]]
  | c :: cs =>
    if c = sep then [] :: splitChars sep cs
    else
      match splitChars sep cs with
      | [] => [[c]]
      | w :: ws => (c :: w) :: ws

/-- The call `QString::split(sep)` for a one-character separator (default `KeepEmptyParts`):
`"a;b"` gives `["a", "b"]`, `""` gives `[""]`. -/
def QString.split (s : String) (sep : Char) : List String :=
  (splitChars sep s.data).map String.mk

/-! ## Daemon-wide getters -/

/-- Source `Client::getActions`: split the reply of `GetActions` at `;` and OR the decoded members.
`enumFromString str enumName pfx` stands for `Util::enumFromString<Client>`. -/
def Client.getActions {ε : Type} (enumFromString : String → String → String → Except ε Nat)
    (GetActions : String) : Except ε Nat :=
  let actions := QString.split GetActions ';'
  actions.foldlM
    (fun flags action => do
      let v ← enumFromString action "Action" "Action"
      pure (flags ||| v))
    0

/-- Source `Client::getFilters`: as `getActions`, after the entry at `indexOf("none")` has been
overwritten with `"no-filter"` when the list contains `"none"`. -/
def Client.getFilters {ε : Type} (enumFromString : String → String → String → Except ε Nat)
    (GetFilters : String) : Except ε Nat :=
  let filters := QString.split GetFilters ';'
  -- Adapt a slight difference in the enum
  let filters :=
    if filters.contains "none" then filters.set (filters.indexOf "none") "no-filter" else filters
  filters.foldlM
    (fun flags filter => do
      let v ← enumFromString filter "Filter" "Filter"
      pure (flags ||| v))
    0

/-- The adaptation step of `Client::getFilters` on the token list: the entry at
`indexOf("none")` becomes `"no-filter"` when the list contains `"none"`. -/
def adaptNone (filters : List String) : List String :=
  if filters.contains "none" then filters.set (filters.indexOf "none") "no-filter" else filters

/-- The strings `Client::getFilters` hands to `enumFromString`, in order. -/
def Client.getFiltersTokens (GetFilters : String) : List String :=
  adaptNone (QString.split GetFilters ';')

/-- The reading of the alias in which every token `"none"` stands for `"no-filter"`. -/
def aliasNone (t : String) : String :=
  if t = "none" then "no-filter" else t

/-- Source `Client::getGroups`: the `QSet` of the decoded members. -/
def Client.getGroups {ε : Type} (enumFromString : String → String → String → Except ε Nat)
    (GetGroups : String) : Except ε (Finset Nat) :=
  let groups := QString.split GetGroups ';'
  groups.foldlM
    (fun flags group => do
      let v ← enumFromString group "Group" "Group"
      pure (insert v flags))
    ∅

/-- Source `Client::getMimeTypes`. -/
def Client.getMimeTypes (GetMimeTypes : String) : List String :=
  QString.split GetMimeTypes ';'

/-- Source `Client::getNetworkState`: the whole reply is decoded as one member. -/
def Client.getNetworkState {ε : Type} (enumFromString : String → String → String → Except ε Nat)
    (GetNetworkState : String) : Except ε Nat :=
  let state := GetNetworkState
  enumFromString state "NetworkState" "Network"

/-- The failure of the codec. -/
inductive CodecError where
  | UnknownEnumValue
  deriving DecidableEq, Repr

/-- Modelled from the spec: `Util::enumFromString` (util.h is not part of the translated
sources). `decode(wireString, enumFamily)` looks the string up in the table of the family
and fails with `UnknownEnumValue` when the table has no entry for it. `tables enumName str`
is the table of `client.h`. -/
def Util.enumFromString (tables : String → String → Option Nat)
    (str enumName _pfx : String) : Except CodecError Nat :=
  match tables enumName str with
  | some v => Except.ok v
  | none => Except.error CodecError.UnknownEnumValue

/-! ## Objects and effects of the transaction functions -/

/-- Modelled from the spec: the `Package` class (package.h is not part of the translated
sources): an identity, `id()`, plus a short human-readable summary. A `Package*` is the
value itself, so two packages may share an id and still be told apart. -/
structure Package where
  id : String
  summary : String
  deriving DecidableEq, Repr

/-- The constructor call `new Package(id)`. -/
def Package.ofId (id : String) : Package := { id := id, summary := "" }

/-- The part of `Client::EulaInfo` the facade reads. -/
structure EulaInfo where
  id : String
  deriving DecidableEq, Repr

/-- The member of `Client::DaemonError` the facade uses. -/
inductive DaemonError where
  | DaemonUnreachable
  deriving DecidableEq, Repr

/-- A `Transaction*`: the identity of the object (`handle`) and its `tid()`. -/
structure Transaction where
  handle : Nat
  tid : String
  deriving DecidableEq, Repr

/-- The role methods of `org.freedesktop.PackageKit.Transaction`, with their arguments in
call order. -/
inductive RoleCall where
  | AcceptEula (id : String)
  | DownloadPackages (pids : List String)
  | GetDepends (filters : String) (pids : List String) (recursive : Bool)
  | GetDetails (pids : List String)
  | GetFiles (pids : List String)
  | GetOldTransactions (number : Nat)
  | GetPackages (filters : String)
  | GetRepoList (filters : String)
  | GetRequires (filters : String) (pids : List String) (recursive : Bool)
  | GetUpdateDetail (pids : List String)
  | GetUpdates (filters : String)
  | GetDistroUpgrades
  | InstallFiles (trusted : Bool) (files : List String)
  | InstallPackages (pids : List String)
  | InstallSignature (type : String) (key_id : String) (pid : String)
  | RefreshCache (force : Bool)
  | RemovePackages (pids : List String) (allow_deps : Bool) (autoremove : Bool)
  | RepoEnable (repo_id : String) (enable : Bool)
  | RepoSetData (repo_id : String) (parameter : String) (value : String)
  | Resolve (filters : String) (packageNames : List String)
  | Rollback (tid : String)
  | SearchFile (filters : String) (search : String)
  | SearchDetails (filters : String) (search : String)
  | SearchGroup (filters : String) (group : String)
  | SearchName (filters : String) (search : String)
  | UpdatePackages (pids : List String)
  | UpdateSystem
  | WhatProvides (filters : String) (type : String) (search : String)
  deriving DecidableEq, Repr

/-- What the facade does to the outside, one entry per action. -/
inductive Effect where
  /-- The call `d->createNewTransaction()` asked the daemon for a transaction. -/
  | createTransaction
  /-- The signal `emit daemonError(e)`. -/
  | daemonError (e : DaemonError)
  /-- The write `t->d->packageMap.insert(key, p)` on the transaction with this handle. -/
  | packageMapInsert (handle : Nat) (key : String) (p : Package)
  /-- The role method `c` was called on the proxy `t->d->p` of the transaction with this handle. -/
  | roleCall (handle : Nat) (c : RoleCall)
  deriving DecidableEq, Repr

/-- A `QMap<QString, Package*>`, by lookup. -/
abbrev QMap := String → Option Package

/-- The call `QMap::insert`: the value of an existing key is replaced. -/
def QMap.insert (key : String) (p : Package) (m : QMap) : QMap :=
  fun k => if k = key then some p else m k

/-- The state of a `Client` object (`ClientPrivate`) together with the transactions it made.
`lastError` is `none` until the code assigns it; `requests` counts the calls of
`createNewTransaction`; `packageMap h` is the package map of the transaction with handle `h`. -/
structure ClientState where
  locale : String
  lastError : Option DaemonError
  requests : Nat
  packageMap : Nat → QMap
  trace : List Effect

/-- The functions of `Util` (util.h, absent) the transaction functions call, as parameters. -/
structure Util where
  filtersToString : Nat → String
  packageListToPids : List Package → List String
  enumToString : Nat → String → String → String

/-- Append one effect to the trace. -/
def ClientState.log (e : Effect) (s : ClientState) : ClientState :=
  { s with trace := s.trace ++ [e] }

/-- Modelled from the spec: `ClientPrivate::createNewTransaction` (clientprivate.cpp is not
part of the translated sources): requests a new transaction from the service and yields no
transaction when the service cannot be reached. `daemon n` is what the service answers to
request number `n`: the id of the new transaction, or `none`. The new object gets the
request number as its handle. -/
def ClientPrivate.createNewTransaction (daemon : Nat → Option String) (s : ClientState) :
    Option Transaction × ClientState :=
  let s' := { s with requests := s.requests + 1, trace := s.trace ++ [Effect.createTransaction] }
  match daemon s.requests with
  | some tid => (some { handle := s.requests, tid := tid }, s')
  | none => (none, s')

/-- The signal `emit daemonError(e)`. -/
def Client.emitDaemonError (e : DaemonError) (s : ClientState) : ClientState :=
  s.log (Effect.daemonError e)

/-- A role method call `t->d->p->c`. -/
def TransactionProxy.call (t : Transaction) (c : RoleCall) (s : ClientState) : ClientState :=
  s.log (Effect.roleCall t.handle c)

/-- The write `t->d->packageMap.insert(key, p)`. -/
def TransactionPrivate.packageMapInsert (t : Transaction) (key : String) (p : Package)
    (s : ClientState) : ClientState :=
  { s with
    packageMap := Function.update s.packageMap t.handle (QMap.insert key p (s.packageMap t.handle))
    trace := s.trace ++ [Effect.packageMapInsert t.handle key p] }

/-- Source `Client::setLocale`. -/
def Client.setLocale (locale : String) (s : ClientState) : ClientState :=
  { s with locale := locale }

/-- Source `Client::getLastError`. -/
def Client.getLastError (s : ClientState) : Option DaemonError :=
  s.lastError

/-! ## Transaction functions -/

/-- Source `Client::acceptEula`. -/
def Client.acceptEula (daemon : Nat → Option String) (info : EulaInfo)
    (s : ClientState) : Option Transaction × ClientState :=
  match ClientPrivate.createNewTransaction daemon s with
  | (none, s) => (none, Client.emitDaemonError DaemonError.DaemonUnreachable s)
  | (some t, s) => (some t, TransactionProxy.call t (RoleCall.AcceptEula info.id) s)

/-- Source `Client::downloadPackages`. -/
def Client.downloadPackages (u : Util) (daemon : Nat → Option String) (packages : List Package)
    (s : ClientState) : Option Transaction × ClientState :=
  match ClientPrivate.createNewTransaction daemon s with
  | (none, s) => (none, Client.emitDaemonError DaemonError.DaemonUnreachable s)
  | (some t, s) => (some t, TransactionProxy.call t (RoleCall.DownloadPackages (u.packageListToPids packages)) s)

/-- Source `Client::downloadPackage` for one package: forwards a one-element list. -/
def Client.downloadPackage (u : Util) (daemon : Nat → Option String) (package : Package)
    (s : ClientState) : Option Transaction × ClientState :=
  Client.downloadPackages u daemon [package] s

/-- Source `Client::getDepends`. -/
def Client.getDepends (u : Util) (daemon : Nat → Option String) (packages : List Package) (filters : Nat) (recursive : Bool)
    (s : ClientState) : Option Transaction × ClientState :=
  match ClientPrivate.createNewTransaction daemon s with
  | (none, s) => (none, Client.emitDaemonError DaemonError.DaemonUnreachable s)
  | (some t, s) => (some t, TransactionProxy.call t (RoleCall.GetDepends (u.filtersToString filters) (u.packageListToPids packages) recursive) s)

/-- Source `Client::getDepends` for one package: forwards a one-element list. -/
def Client.getDependsSingle (u : Util) (daemon : Nat → Option String) (package : Package) (filters : Nat) (recursive : Bool)
    (s : ClientState) : Option Transaction × ClientState :=
  Client.getDepends u daemon [package] filters recursive s

/-- Source `Client::getDetails(const QList<Package*>&)`: the packages are recorded in the
package map of the new transaction, then `GetDetails` is called. -/
def Client.getDetails (u : Util) (daemon : Nat → Option String) (packages : List Package)
    (s : ClientState) : Option Transaction × ClientState :=
  match ClientPrivate.createNewTransaction daemon s with
  | (none, s) => (none, Client.emitDaemonError DaemonError.DaemonUnreachable s)
  | (some t, s) =>
    let s := packages.foldl (fun s p => TransactionPrivate.packageMapInsert t p.id p s) s
    (some t, TransactionProxy.call t (RoleCall.GetDetails (u.packageListToPids packages)) s)

/-- Source `Client::getDetails` for one package: forwards a one-element list. -/
def Client.getDetailsSingle (u : Util) (daemon : Nat → Option String) (package : Package)
    (s : ClientState) : Option Transaction × ClientState :=
  Client.getDetails u daemon [package] s

/-- Source `Client::getFiles`. -/
def Client.getFiles (u : Util) (daemon : Nat → Option String) (packages : List Package)
    (s : ClientState) : Option Transaction × ClientState :=
  match ClientPrivate.createNewTransaction daemon s with
  | (none, s) => (none, Client.emitDaemonError DaemonError.DaemonUnreachable s)
  | (some t, s) => (some t, TransactionProxy.call t (RoleCall.GetFiles (u.packageListToPids packages)) s)

/-- Source `Client::getFiles` for one package: forwards a one-element list. -/
def Client.getFilesSingle (u : Util) (daemon : Nat → Option String) (package : Package)
    (s : ClientState) : Option Transaction × ClientState :=
  Client.getFiles u daemon [package] s

/-- Source `Client::getOldTransactions`. -/
def Client.getOldTransactions (daemon : Nat → Option String) (number : Nat)
    (s : ClientState) : Option Transaction × ClientState :=
  match ClientPrivate.createNewTransaction daemon s with
  | (none, s) => (none, Client.emitDaemonError DaemonError.DaemonUnreachable s)
  | (some t, s) => (some t, TransactionProxy.call t (RoleCall.GetOldTransactions number) s)

/-- Source `Client::getPackages`. -/
def Client.getPackages (u : Util) (daemon : Nat → Option String) (filters : Nat)
    (s : ClientState) : Option Transaction × ClientState :=
  match ClientPrivate.createNewTransaction daemon s with
  | (none, s) => (none, Client.emitDaemonError DaemonError.DaemonUnreachable s)
  | (some t, s) => (some t, TransactionProxy.call t (RoleCall.GetPackages (u.filtersToString filters)) s)

/-- Source `Client::getRepoList`. -/
def Client.getRepoList (u : Util) (daemon : Nat → Option String) (filters : Nat)
    (s : ClientState) : Option Transaction × ClientState :=
  match ClientPrivate.createNewTransaction daemon s with
  | (none, s) => (none, Client.emitDaemonError DaemonError.DaemonUnreachable s)
  | (some t, s) => (some t, TransactionProxy.call t (RoleCall.GetRepoList (u.filtersToString filters)) s)

/-- Source `Client::getRequires`. -/
def Client.getRequires (u : Util) (daemon : Nat → Option String) (packages : List Package) (filters : Nat) (recursive : Bool)
    (s : ClientState) : Option Transaction × ClientState :=
  match ClientPrivate.createNewTransaction daemon s with
  | (none, s) => (none, Client.emitDaemonError DaemonError.DaemonUnreachable s)
  | (some t, s) => (some t, TransactionProxy.call t (RoleCall.GetRequires (u.filtersToString filters) (u.packageListToPids packages) recursive) s)

/-- Source `Client::getRequires` for one package: forwards a one-element list. -/
def Client.getRequiresSingle (u : Util) (daemon : Nat → Option String) (package : Package) (filters : Nat) (recursive : Bool)
    (s : ClientState) : Option Transaction × ClientState :=
  Client.getRequires u daemon [package] filters recursive s

/-- Source `Client::getUpdateDetail`. -/
def Client.getUpdateDetail (u : Util) (daemon : Nat → Option String) (packages : List Package)
    (s : ClientState) : Option Transaction × ClientState :=
  match ClientPrivate.createNewTransaction daemon s with
  | (none, s) => (none, Client.emitDaemonError DaemonError.DaemonUnreachable s)
  | (some t, s) => (some t, TransactionProxy.call t (RoleCall.GetUpdateDetail (u.packageListToPids packages)) s)

/-- Source `Client::getUpdateDetail` for one package: forwards a one-element list. -/
def Client.getUpdateDetailSingle (u : Util) (daemon : Nat → Option String) (package : Package)
    (s : ClientState) : Option Transaction × ClientState :=
  Client.getUpdateDetail u daemon [package] s

/-- Source `Client::getUpdates`. -/
def Client.getUpdates (u : Util) (daemon : Nat → Option String) (filters : Nat)
    (s : ClientState) : Option Transaction × ClientState :=
  match ClientPrivate.createNewTransaction daemon s with
  | (none, s) => (none, Client.emitDaemonError DaemonError.DaemonUnreachable s)
  | (some t, s) => (some t, TransactionProxy.call t (RoleCall.GetUpdates (u.filtersToString filters)) s)

/-- Source `Client::getDistroUpgrades`. -/
def Client.getDistroUpgrades (daemon : Nat → Option String)
    (s : ClientState) : Option Transaction × ClientState :=
  match ClientPrivate.createNewTransaction daemon s with
  | (none, s) => (none, Client.emitDaemonError DaemonError.DaemonUnreachable s)
  | (some t, s) => (some t, TransactionProxy.call t (RoleCall.GetDistroUpgrades) s)

/-- Source `Client::installFiles`. -/
def Client.installFiles (daemon : Nat → Option String) (files : List String) (trusted : Bool)
    (s : ClientState) : Option Transaction × ClientState :=
  match ClientPrivate.createNewTransaction daemon s with
  | (none, s) => (none, Client.emitDaemonError DaemonError.DaemonUnreachable s)
  | (some t, s) => (some t, TransactionProxy.call t (RoleCall.InstallFiles trusted files) s)

/-- Source `Client::installFile` for one file: forwards a one-element list. -/
def Client.installFile (daemon : Nat → Option String) (file : String) (trusted : Bool)
    (s : ClientState) : Option Transaction × ClientState :=
  Client.installFiles daemon [file] trusted s

/-- Source `Client::installPackages`. -/
def Client.installPackages (u : Util) (daemon : Nat → Option String) (packages : List Package)
    (s : ClientState) : Option Transaction × ClientState :=
  match ClientPrivate.createNewTransaction daemon s with
  | (none, s) => (none, Client.emitDaemonError DaemonError.DaemonUnreachable s)
  | (some t, s) => (some t, TransactionProxy.call t (RoleCall.InstallPackages (u.packageListToPids packages)) s)

/-- Source `Client::installPackage` for one package: forwards a one-element list. -/
def Client.installPackage (u : Util) (daemon : Nat → Option String) (p : Package)
    (s : ClientState) : Option Transaction × ClientState :=
  Client.installPackages u daemon [p] s

/-- Source `Client::installSignature`. -/
def Client.installSignature (u : Util) (daemon : Nat → Option String) (type : Nat) (key_id : String) (p : Package)
    (s : ClientState) : Option Transaction × ClientState :=
  match ClientPrivate.createNewTransaction daemon s with
  | (none, s) => (none, Client.emitDaemonError DaemonError.DaemonUnreachable s)
  | (some t, s) => (some t, TransactionProxy.call t (RoleCall.InstallSignature (u.enumToString type "SignatureType" "Signature") key_id p.id) s)

/-- Source `Client::refreshCache`. -/
def Client.refreshCache (daemon : Nat → Option String) (force : Bool)
    (s : ClientState) : Option Transaction × ClientState :=
  match ClientPrivate.createNewTransaction daemon s with
  | (none, s) => (none, Client.emitDaemonError DaemonError.DaemonUnreachable s)
  | (some t, s) => (some t, TransactionProxy.call t (RoleCall.RefreshCache force) s)

/-- Source `Client::removePackages`. -/
def Client.removePackages (u : Util) (daemon : Nat → Option String) (packages : List Package) (allow_deps : Bool) (autoremove : Bool)
    (s : ClientState) : Option Transaction × ClientState :=
  match ClientPrivate.createNewTransaction daemon s with
  | (none, s) => (none, Client.emitDaemonError DaemonError.DaemonUnreachable s)
  | (some t, s) => (some t, TransactionProxy.call t (RoleCall.RemovePackages (u.packageListToPids packages) allow_deps autoremove) s)

/-- Source `Client::removePackage` for one package: forwards a one-element list. -/
def Client.removePackage (u : Util) (daemon : Nat → Option String) (p : Package) (allow_deps : Bool) (autoremove : Bool)
    (s : ClientState) : Option Transaction × ClientState :=
  Client.removePackages u daemon [p] allow_deps autoremove s

/-- Source `Client::repoEnable`. -/
def Client.repoEnable (daemon : Nat → Option String) (repo_id : String) (enable : Bool)
    (s : ClientState) : Option Transaction × ClientState :=
  match ClientPrivate.createNewTransaction daemon s with
  | (none, s) => (none, Client.emitDaemonError DaemonError.DaemonUnreachable s)
  | (some t, s) => (some t, TransactionProxy.call t (RoleCall.RepoEnable repo_id enable) s)

/-- Source `Client::repoSetData`. -/
def Client.repoSetData (daemon : Nat → Option String) (repo_id : String) (parameter : String) (value : String)
    (s : ClientState) : Option Transaction × ClientState :=
  match ClientPrivate.createNewTransaction daemon s with
  | (none, s) => (none, Client.emitDaemonError DaemonError.DaemonUnreachable s)
  | (some t, s) => (some t, TransactionProxy.call t (RoleCall.RepoSetData repo_id parameter value) s)

/-- Source `Client::resolve`. -/
def Client.resolve (u : Util) (daemon : Nat → Option String) (packageNames : List String) (filters : Nat)
    (s : ClientState) : Option Transaction × ClientState :=
  match ClientPrivate.createNewTransaction daemon s with
  | (none, s) => (none, Client.emitDaemonError DaemonError.DaemonUnreachable s)
  | (some t, s) => (some t, TransactionProxy.call t (RoleCall.Resolve (u.filtersToString filters) packageNames) s)

/-- Source `Client::resolve` for one name: forwards a one-element list. -/
def Client.resolveSingle (u : Util) (daemon : Nat → Option String) (packageName : String) (filters : Nat)
    (s : ClientState) : Option Transaction × ClientState :=
  Client.resolve u daemon [packageName] filters s

/-- Source `Client::rollback`. -/
def Client.rollback (daemon : Nat → Option String) (oldtrans : Transaction)
    (s : ClientState) : Option Transaction × ClientState :=
  match ClientPrivate.createNewTransaction daemon s with
  | (none, s) => (none, Client.emitDaemonError DaemonError.DaemonUnreachable s)
  | (some t, s) => (some t, TransactionProxy.call t (RoleCall.Rollback oldtrans.tid) s)

/-- Source `Client::searchFile`. -/
def Client.searchFile (u : Util) (daemon : Nat → Option String) (search : String) (filters : Nat)
    (s : ClientState) : Option Transaction × ClientState :=
  match ClientPrivate.createNewTransaction daemon s with
  | (none, s) => (none, Client.emitDaemonError DaemonError.DaemonUnreachable s)
  | (some t, s) => (some t, TransactionProxy.call t (RoleCall.SearchFile (u.filtersToString filters) search) s)

/-- Source `Client::searchDetails`. -/
def Client.searchDetails (u : Util) (daemon : Nat → Option String) (search : String) (filters : Nat)
    (s : ClientState) : Option Transaction × ClientState :=
  match ClientPrivate.createNewTransaction daemon s with
  | (none, s) => (none, Client.emitDaemonError DaemonError.DaemonUnreachable s)
  | (some t, s) => (some t, TransactionProxy.call t (RoleCall.SearchDetails (u.filtersToString filters) search) s)

/-- Source `Client::searchGroup`. -/
def Client.searchGroup (u : Util) (daemon : Nat → Option String) (group : Nat) (filters : Nat)
    (s : ClientState) : Option Transaction × ClientState :=
  match ClientPrivate.createNewTransaction daemon s with
  | (none, s) => (none, Client.emitDaemonError DaemonError.DaemonUnreachable s)
  | (some t, s) => (some t, TransactionProxy.call t (RoleCall.SearchGroup (u.filtersToString filters) (u.enumToString group "Group" "Group")) s)

/-- Source `Client::searchName`. -/
def Client.searchName (u : Util) (daemon : Nat → Option String) (search : String) (filters : Nat)
    (s : ClientState) : Option Transaction × ClientState :=
  match ClientPrivate.createNewTransaction daemon s with
  | (none, s) => (none, Client.emitDaemonError DaemonError.DaemonUnreachable s)
  | (some t, s) => (some t, TransactionProxy.call t (RoleCall.SearchName (u.filtersToString filters) search) s)

/-- Source `Client::updatePackages`. -/
def Client.updatePackages (u : Util) (daemon : Nat → Option String) (packages : List Package)
    (s : ClientState) : Option Transaction × ClientState :=
  match ClientPrivate.createNewTransaction daemon s with
  | (none, s) => (none, Client.emitDaemonError DaemonError.DaemonUnreachable s)
  | (some t, s) => (some t, TransactionProxy.call t (RoleCall.UpdatePackages (u.packageListToPids packages)) s)

/-- Source `Client::updatePackage` for one package: forwards a one-element list. -/
def Client.updatePackage (u : Util) (daemon : Nat → Option String) (package : Package)
    (s : ClientState) : Option Transaction × ClientState :=
  Client.updatePackages u daemon [package] s

/-- Source `Client::updateSystem`: the failure branch also assigns `d->lastError`. -/
def Client.updateSystem (daemon : Nat → Option String)
    (s : ClientState) : Option Transaction × ClientState :=
  match ClientPrivate.createNewTransaction daemon s with
  | (none, s) =>
    let s := Client.emitDaemonError DaemonError.DaemonUnreachable s
    (none, { s with lastError := some DaemonError.DaemonUnreachable })
  | (some t, s) => (some t, TransactionProxy.call t RoleCall.UpdateSystem s)

/-- Source `Client::whatProvides`. -/
def Client.whatProvides (u : Util) (daemon : Nat → Option String) (type : Nat) (search : String) (filters : Nat)
    (s : ClientState) : Option Transaction × ClientState :=
  match ClientPrivate.createNewTransaction daemon s with
  | (none, s) => (none, Client.emitDaemonError DaemonError.DaemonUnreachable s)
  | (some t, s) => (some t, TransactionProxy.call t (RoleCall.WhatProvides (u.filtersToString filters) (u.enumToString type "ProvidesType" "Provides") search) s)

/-- A call of one of the transaction functions that take a list or no package, with its arguments. -/
inductive Op where
  | acceptEula (info : EulaInfo)
  | downloadPackages (packages : List Package)
  | getDepends (packages : List Package) (filters : Nat) (recursive : Bool)
  | getDetails (packages : List Package)
  | getFiles (packages : List Package)
  | getOldTransactions (number : Nat)
  | getPackages (filters : Nat)
  | getRepoList (filters : Nat)
  | getRequires (packages : List Package) (filters : Nat) (recursive : Bool)
  | getUpdateDetail (packages : List Package)
  | getUpdates (filters : Nat)
  | getDistroUpgrades
  | installFiles (files : List String) (trusted : Bool)
  | installPackages (packages : List Package)
  | installSignature (type : Nat) (key_id : String) (p : Package)
  | refreshCache (force : Bool)
  | removePackages (packages : List Package) (allow_deps : Bool) (autoremove : Bool)
  | repoEnable (repo_id : String) (enable : Bool)
  | repoSetData (repo_id : String) (parameter : String) (value : String)
  | resolve (packageNames : List String) (filters : Nat)
  | rollback (oldtrans : Transaction)
  | searchFile (search : String) (filters : Nat)
  | searchDetails (search : String) (filters : Nat)
  | searchGroup (group : Nat) (filters : Nat)
  | searchName (search : String) (filters : Nat)
  | updatePackages (packages : List Package)
  | updateSystem
  | whatProvides (type : Nat) (search : String) (filters : Nat)
  deriving DecidableEq, Repr

/-- Run the transaction function an `Op` names. -/
def Client.call (u : Util) (daemon : Nat → Option String) : Op → ClientState → Option Transaction × ClientState
  | Op.acceptEula info, s => Client.acceptEula daemon info s
  | Op.downloadPackages packages, s => Client.downloadPackages u daemon packages s
  | Op.getDepends packages filters recursive, s => Client.getDepends u daemon packages filters recursive s
  | Op.getDetails packages, s => Client.getDetails u daemon packages s
  | Op.getFiles packages, s => Client.getFiles u daemon packages s
  | Op.getOldTransactions number, s => Client.getOldTransactions daemon number s
  | Op.getPackages filters, s => Client.getPackages u daemon filters s
  | Op.getRepoList filters, s => Client.getRepoList u daemon filters s
  | Op.getRequires packages filters recursive, s => Client.getRequires u daemon packages filters recursive s
  | Op.getUpdateDetail packages, s => Client.getUpdateDetail u daemon packages s
  | Op.getUpdates filters, s => Client.getUpdates u daemon filters s
  | Op.getDistroUpgrades, s => Client.getDistroUpgrades daemon s
  | Op.installFiles files trusted, s => Client.installFiles daemon files trusted s
  | Op.installPackages packages, s => Client.installPackages u daemon packages s
  | Op.installSignature type key_id p, s => Client.installSignature u daemon type key_id p s
  | Op.refreshCache force, s => Client.refreshCache daemon force s
  | Op.removePackages packages allow_deps autoremove, s => Client.removePackages u daemon packages allow_deps autoremove s
  | Op.repoEnable repo_id enable, s => Client.repoEnable daemon repo_id enable s
  | Op.repoSetData repo_id parameter value, s => Client.repoSetData daemon repo_id parameter value s
  | Op.resolve packageNames filters, s => Client.resolve u daemon packageNames filters s
  | Op.rollback oldtrans, s => Client.rollback daemon oldtrans s
  | Op.searchFile search filters, s => Client.searchFile u daemon search filters s
  | Op.searchDetails search filters, s => Client.searchDetails u daemon search filters s
  | Op.searchGroup group filters, s => Client.searchGroup u daemon group filters s
  | Op.searchName search filters, s => Client.searchName u daemon search filters s
  | Op.updatePackages packages, s => Client.updatePackages u daemon packages s
  | Op.updateSystem, s => Client.updateSystem daemon s
  | Op.whatProvides type search filters, s => Client.whatProvides u daemon type search filters s

/-- A call of one of the single-object overloads, with its arguments. -/
inductive SingularOp where
  | downloadPackage (package : Package)
  | getDependsSingle (package : Package) (filters : Nat) (recursive : Bool)
  | getDetailsSingle (package : Package)
  | getFilesSingle (package : Package)
  | getRequiresSingle (package : Package) (filters : Nat) (recursive : Bool)
  | getUpdateDetailSingle (package : Package)
  | installFile (file : String) (trusted : Bool)
  | installPackage (p : Package)
  | removePackage (p : Package) (allow_deps : Bool) (autoremove : Bool)
  | resolveSingle (packageName : String) (filters : Nat)
  | updatePackage (package : Package)
  deriving DecidableEq, Repr

/-- Run the single-object overload a `SingularOp` names. -/
def Client.callSingular (u : Util) (daemon : Nat → Option String) : SingularOp → ClientState → Option Transaction × ClientState
  | SingularOp.downloadPackage package, s => Client.downloadPackage u daemon package s
  | SingularOp.getDependsSingle package filters recursive, s => Client.getDependsSingle u daemon package filters recursive s
  | SingularOp.getDetailsSingle package, s => Client.getDetailsSingle u daemon package s
  | SingularOp.getFilesSingle package, s => Client.getFilesSingle u daemon package s
  | SingularOp.getRequiresSingle package filters recursive, s => Client.getRequiresSingle u daemon package filters recursive s
  | SingularOp.getUpdateDetailSingle package, s => Client.getUpdateDetailSingle u daemon package s
  | SingularOp.installFile file trusted, s => Client.installFile daemon file trusted s
  | SingularOp.installPackage p, s => Client.installPackage u daemon p s
  | SingularOp.removePackage p allow_deps autoremove, s => Client.removePackage u daemon p allow_deps autoremove s
  | SingularOp.resolveSingle packageName filters, s => Client.resolveSingle u daemon packageName filters s
  | SingularOp.updatePackage package, s => Client.updatePackage u daemon package s

/-- The plural call on the one-element list that a single-object overload stands for. -/
def SingularOp.plural : SingularOp → Op
  | SingularOp.downloadPackage package => Op.downloadPackages [package]
  | SingularOp.getDependsSingle package filters recursive => Op.getDepends [package] filters recursive
  | SingularOp.getDetailsSingle package => Op.getDetails [package]
  | SingularOp.getFilesSingle package => Op.getFiles [package]
  | SingularOp.getRequiresSingle package filters recursive => Op.getRequires [package] filters recursive
  | SingularOp.getUpdateDetailSingle package => Op.getUpdateDetail [package]
  | SingularOp.installFile file trusted => Op.installFiles [file] trusted
  | SingularOp.installPackage p => Op.installPackages [p]
  | SingularOp.removePackage p allow_deps autoremove => Op.removePackages [p] allow_deps autoremove
  | SingularOp.resolveSingle packageName filters => Op.resolve [packageName] filters
  | SingularOp.updatePackage package => Op.updatePackages [package]

/-- Run a sequence of transaction functions, one after the other; the results come in call order. -/
def Client.run (u : Util) (daemon : Nat → Option String) :
    List Op → ClientState → List (Option Transaction) × ClientState
  | [], s => ([], s)
  | op :: ops, s =>
    let r := Client.call u daemon op s
    let rs := Client.run u daemon ops r.2
    (r.1 :: rs.1, rs.2)

/-- The handles of the transactions that received a role call, in trace order. -/
def roleHandles : List Effect → List Nat
  | [] => []
  | Effect.roleCall h _ :: es => h :: roleHandles es
  | _ :: es => roleHandles es

/-- The role calls of a trace with the handle they went to, in trace order. -/
def roleCalls : List Effect → List (Nat × RoleCall)
  | [] => []
  | Effect.roleCall h c :: es => (h, c) :: roleCalls es
  | _ :: es => roleCalls es

/-- The `daemonError` signals of a trace, in trace order. -/
def daemonErrors : List Effect → List DaemonError
  | [] => []
  | Effect.daemonError e :: es => e :: daemonErrors es
  | _ :: es => daemonErrors es

/-- The number of transaction requests in a trace. -/
def createRequests : List Effect → Nat
  | [] => 0
  | Effect.createTransaction :: es => createRequests es + 1
  | _ :: es => createRequests es

/-- The state of a `Client` right after its constructor: `d->locale = QString()`, nothing
assigned to `lastError`, no transaction requested. -/
def ClientState.initial : ClientState :=
  { locale := "", lastError := none, requests := 0, packageMap := fun _ _ => none, trace := [] }

/-! ## Desktop-file lookup and the shared instance -/

/-- The default `QSqlDatabase` connection to `/var/lib/PackageKit/desktop-files.db`:
`isOpen` is the answer of `db.isOpen()`, `execOk` tells whether the prepared `SELECT` can be
executed, `rows` are the `(filename, package)` rows of table `cache` in result order. -/
structure QSqlDatabase where
  isOpen : Bool
  execOk : Bool
  rows : List (String × String)
  deriving DecidableEq, Repr

/-- The call `QSqlDatabase::database()` with its default argument `open = true`: a connection
that is not open is opened now; `canOpen` is the outcome of that attempt. -/
def QSqlDatabase.database (canOpen : Bool) (conn : QSqlDatabase) : QSqlDatabase :=
  if conn.isOpen then conn else { conn with isOpen := canOpen }

/-- Source `Client::searchFromDesktopFile`: `NULL` is `none`. The result comes with the
state the call leaves the shared connection in. -/
def Client.searchFromDesktopFile (canOpen : Bool) (conn : QSqlDatabase) (path : String) :
    Option Package × QSqlDatabase :=
  let db := QSqlDatabase.database canOpen conn
  if !db.isOpen then
    (none, db)
  else
    -- SELECT package FROM cache WHERE filename = :path
    if !db.execOk then
      (none, db)
    else
      match db.rows.filter (fun r => r.1 = path) with
      | [] => (none, db)
      | r :: _ => (some (Package.ofId r.2), db)

/-- The process as far as `Client::instance` is concerned: the static `m_instance`
(`none` is the null pointer), the `Client` objects constructed so far (a pointer is the
position in this list), the number of `DaemonProxy` objects constructed so far, and the
default database connection. -/
structure Process where
  m_instance : Option Nat
  clients : List ClientState
  daemonProxies : Nat
  db : QSqlDatabase

/-- The process at start: `Client* Client::m_instance = 0`, nothing constructed, the
database closed. -/
def Process.initial (execOk : Bool) (rows : List (String × String)) : Process :=
  { m_instance := none, clients := [], daemonProxies := 0,
    db := { isOpen := false, execOk := execOk, rows := rows } }

/-- Source `Client::Client`: makes the private part with a new `DaemonProxy` and an empty
locale, then opens the database; `dbOpens` is the result of `db.open()`, and a failure is
only logged. Returns the pointer to the new object. -/
def Client.Client (dbOpens : Bool) (p : Process) : Nat × Process :=
  (p.clients.length,
    { p with
      clients := p.clients ++ [ClientState.initial]
      daemonProxies := p.daemonProxies + 1
      db := { p.db with isOpen := dbOpens } })

/-- Source `Client::instance`. -/
def Client.instance (dbOpens : Bool) (p : Process) : Nat × Process :=
  match p.m_instance with
  | none =>
    let r := Client.Client dbOpens p
    (r.1, { r.2 with m_instance := some r.1 })
  | some c => (c, p)

/-- A sequence of calls of `Client::instance`, one per entry of `opens` (the result
`db.open()` would have at that call); the returned pointers come in call order. -/
def Client.instances : List Bool → Process → List Nat × Process
  | [], p => ([], p)
  | o :: os, p =>
    let r := Client.instance o p
    let rs := Client.instances os r.2
    (r.1 :: rs.1, rs.2)

/-! ## The alias as the specification words it -/

/-- The specification's reading of `getFilters`: every token `"none"` is decoded as
`"no-filter"`, every other token as itself, and the decoded members are united. -/
def Spec.getFilters {ε : Type} (enumFromString : String → String → String → Except ε Nat)
    (GetFilters : String) : Except ε Nat :=
  ((QString.split GetFilters ';').map aliasNone).foldlM
    (fun flags filter => do
      let v ← enumFromString filter "Filter" "Filter"
      pure (flags ||| v))
    0

/-- A filter table with the single entry `"no-filter"`, of value `1`. -/
def noFilterOnly : String → String → Option Nat :=
  fun _ t => if t = "no-filter" then some 1 else none

/-! ## Lemmas on the decoding loops -/

/-- A loop whose every token decodes runs to the end and folds the decoded values. -/
theorem foldlM_decode_ok {ε α : Type} (dec : String → Except ε Nat) (val : String → Nat)
    (g : α → Nat → α) (l : List String) (a : α)
    (h : ∀ t ∈ l, dec t = Except.ok (val t)) :
    l.foldlM (fun acc t => do let v ← dec t; pure (g acc v)) a
      = Except.ok (l.foldl (fun acc t => g acc (val t)) a) := by
  induction l generalizing a with
  | nil => rfl
  | cons x xs ih =>
    have hx : dec x = Except.ok (val x) := h x (List.mem_cons_self x xs)
    have hxs : ∀ t ∈ xs, dec t = Except.ok (val t) := fun t ht => h t (List.mem_cons_of_mem x ht)
    rw [List.foldlM_cons, hx]
    exact ih (g a (val x)) hxs

/-- A loop that meets a token the decoder rejects fails as a whole. -/
theorem foldlM_decode_error {α : Type} (dec : String → Except CodecError Nat)
    (g : α → Nat → α) (l : List String) (a : α)
    (h : ∃ t ∈ l, dec t = Except.error CodecError.UnknownEnumValue) :
    l.foldlM (fun acc t => do let v ← dec t; pure (g acc v)) a
      = Except.error CodecError.UnknownEnumValue := by
  induction l generalizing a with
  | nil =>
    obtain ⟨t, ht, _⟩ := h
    cases ht
  | cons x xs ih =>
    rw [List.foldlM_cons]
    cases hx : dec x with
    | error e => cases e; rfl
    | ok v =>
      obtain ⟨t, ht, hte⟩ := h
      rcases List.mem_cons.mp ht with rfl | hmem
      · rw [hx] at hte; cases hte
      · exact ih (g a v) ⟨t, hmem, hte⟩

/-- Bits of an OR-fold: those of the start value and of the members. -/
theorem testBit_foldl_lor (l : List Nat) (a i : Nat) :
    (l.foldl (fun acc v => acc ||| v) a).testBit i = (a.testBit i || l.any (fun v => v.testBit i)) := by
  induction l generalizing a with
  | nil => simp
  | cons x xs ih =>
    rw [List.foldl_cons, ih, Nat.testBit_lor, List.any_cons, Bool.or_assoc]

/-- An OR-fold depends only on which values occur. -/
theorem foldl_lor_congr (l₁ l₂ : List Nat) (h : ∀ v, v ∈ l₁ ↔ v ∈ l₂) :
    l₁.foldl (fun acc v => acc ||| v) 0 = l₂.foldl (fun acc v => acc ||| v) 0 := by
  apply Nat.eq_of_testBit_eq
  intro i
  rw [testBit_foldl_lor, testBit_foldl_lor]
  congr 1
  rw [Bool.eq_iff_iff]
  simp only [List.any_eq_true]
  constructor
  · rintro ⟨v, hv, hb⟩; exact ⟨v, (h v).mp hv, hb⟩
  · rintro ⟨v, hv, hb⟩; exact ⟨v, (h v).mpr hv, hb⟩

/-- An insert-fold into a `QSet` is the set of the members. -/
theorem foldl_insert_eq (l : List Nat) (s : Finset Nat) :
    l.foldl (fun acc v => insert v acc) s = s ∪ l.toFinset := by
  induction l generalizing s with
  | nil => simp
  | cons x xs ih =>
    rw [List.foldl_cons, ih]
    ext v
    simp only [Finset.mem_union, Finset.mem_insert, List.toFinset_cons]
    tauto

/-- The adaptation step, entry by entry. -/
theorem adaptNone_cons (x : String) (xs : List String) :
    adaptNone (x :: xs) = if x = "none" then "no-filter" :: xs else x :: adaptNone xs := by
  unfold adaptNone
  by_cases hx : x = "none"
  · subst hx; simp
  · have hx' : ¬ ("none" = x) := fun h => hx h.symm
    simp only [List.contains_cons, List.indexOf_cons, hx, if_false]
    have hb : (x == "none") = false := by simpa using hx
    have hb' : ("none" == x) = false := by simpa using hx'
    simp only [hb, hb', Bool.false_or, cond_false]
    split <;> simp

/-- Every token survives the adaptation step, up to the alias. -/
theorem mem_adaptNone (l : List String) (t : String) (ht : t ∈ l) :
    aliasNone t ∈ adaptNone l := by
  induction l with
  | nil => cases ht
  | cons x xs ih =>
    rw [adaptNone_cons]
    by_cases hx : x = "none"
    · rw [if_pos hx]
      rcases List.mem_cons.mp ht with rfl | hmem
      · simp [aliasNone, hx]
      · by_cases htn : t = "none"
        · simp [aliasNone, htn]
        · simp [aliasNone, htn, hmem]
    · rw [if_neg hx]
      rcases List.mem_cons.mp ht with rfl | hmem
      · simp [aliasNone, hx]
      · exact List.mem_cons_of_mem _ (ih hmem)

/-- With at most one `"none"` the adaptation step is the alias applied to every token. -/
theorem adaptNone_eq_map (l : List String) (h : l.count "none" ≤ 1) :
    adaptNone l = l.map aliasNone := by
  induction l with
  | nil => rfl
  | cons x xs ih =>
    rw [adaptNone_cons]
    by_cases hx : x = "none"
    · subst hx
      have hc : xs.count "none" = 0 := by
        rw [List.count_cons_self] at h; omega
      have hn : ∀ t ∈ xs, aliasNone t = t := by
        intro t ht
        have : t ≠ "none" := fun e => by
          subst e
          exact (List.count_eq_zero.mp hc) ht
        simp [aliasNone, this]
      have hm : xs.map aliasNone = xs := by
        rw [List.map_congr_left hn, List.map_id']
      rw [if_pos rfl, List.map_cons, hm]
      rfl
    · have hc : xs.count "none" ≤ 1 := by
        rw [List.count_cons_of_ne (Ne.symm hx)] at h; exact h
      rw [if_neg hx, ih hc]
      simp [aliasNone, hx]

/-- The loop of `getFilters` runs over the adapted token list. -/
theorem getFilters_eq_foldlM_tokens {ε : Type}
    (dec : String → String → String → Except ε Nat) (wire : String) :
    Client.getFilters dec wire
      = (Client.getFiltersTokens wire).foldlM
          (fun flags filter => do
            let v ← dec filter "Filter" "Filter"
            pure (flags ||| v))
          0 :=
  rfl

/-- With at most one `"none"` in the wire string `getFilters` is the specification's reading. -/
theorem getFilters_eq_spec_of_count_le_one {ε : Type}
    (dec : String → String → String → Except ε Nat) (wire : String)
    (h : (QString.split wire ';').count "none" ≤ 1) :
    Client.getFilters dec wire = Spec.getFilters dec wire := by
  have e := adaptNone_eq_map (QString.split wire ';') h
  unfold adaptNone at e
  unfold Client.getFilters Spec.getFilters
  simp only [e]

/-! ## Claims on the daemon-wide getters -/

/-- C3: on the wire string `"none;none"` only the first `"none"` is replaced: `getFilters`
hands `"no-filter"` and then `"none"` to the decoder, so with a table that knows only
`"no-filter"` the call fails, while decoding every `"none"` as `"no-filter"` gives the
member `1`. -/
theorem getFilters_repeated_none :
    Client.getFiltersTokens "none;none" = ["no-filter", "none"]
    ∧ Client.getFilters (Util.enumFromString noFilterOnly) "none;none"
        = Except.error CodecError.UnknownEnumValue
    ∧ Spec.getFilters (Util.enumFromString noFilterOnly) "none;none" = Except.ok 1 :=
  ⟨by decide, rfl, rfl⟩

/-- C4: with the decoder of the specification, a wire string with a token that has no entry
in the table of its family makes `getActions`, `getFilters` (tokens read through the `"none"`
alias), `getGroups` and `getNetworkState` fail with `UnknownEnumValue`. -/
theorem getters_fail_on_unknown_token (tables : String → String → Option Nat)
    (wA wF wG wN : String)
    (hA : ∃ t ∈ QString.split wA ';', tables "Action" t = none)
    (hF : ∃ t ∈ QString.split wF ';', tables "Filter" (aliasNone t) = none)
    (hG : ∃ t ∈ QString.split wG ';', tables "Group" t = none)
    (hN : tables "NetworkState" wN = none) :
    Client.getActions (Util.enumFromString tables) wA = Except.error CodecError.UnknownEnumValue
    ∧ Client.getFilters (Util.enumFromString tables) wF = Except.error CodecError.UnknownEnumValue
    ∧ Client.getGroups (Util.enumFromString tables) wG = Except.error CodecError.UnknownEnumValue
    ∧ Client.getNetworkState (Util.enumFromString tables) wN
        = Except.error CodecError.UnknownEnumValue := by
  refine ⟨?_, ?_, ?_, ?_⟩
  · obtain ⟨t, ht, hte⟩ := hA
    exact foldlM_decode_error (fun t => Util.enumFromString tables t "Action" "Action")
      (fun acc v => acc ||| v) _ 0 ⟨t, ht, by simp [Util.enumFromString, hte]⟩
  · obtain ⟨t, ht, hte⟩ := hF
    exact foldlM_decode_error (fun t => Util.enumFromString tables t "Filter" "Filter")
      (fun acc v => acc ||| v) (adaptNone (QString.split wF ';')) 0
      ⟨aliasNone t, mem_adaptNone _ t ht, by simp [Util.enumFromString, hte]⟩
  · obtain ⟨t, ht, hte⟩ := hG
    exact foldlM_decode_error (fun t => Util.enumFromString tables t "Group" "Group")
      (fun acc v => insert v acc) _ (∅ : Finset Nat) ⟨t, ht, by simp [Util.enumFromString, hte]⟩
  · simp [Client.getNetworkState, Util.enumFromString, hN]

/-- C4 at the replies `"install;bogus"`, `"none;bogus"`, `"bogus"` and `"bogus"` with a
table that knows `"install"` and `"no-filter"` only. -/
theorem getters_fail_on_unknown_token_witness :
    Client.getActions (Util.enumFromString
        (fun _ t => if t = "install" then some 1 else if t = "no-filter" then some 1 else none))
      "install;bogus" = Except.error CodecError.UnknownEnumValue
    ∧ Client.getFilters (Util.enumFromString
        (fun _ t => if t = "install" then some 1 else if t = "no-filter" then some 1 else none))
      "none;bogus" = Except.error CodecError.UnknownEnumValue
    ∧ Client.getGroups (Util.enumFromString
        (fun _ t => if t = "install" then some 1 else if t = "no-filter" then some 1 else none))
      "bogus" = Except.error CodecError.UnknownEnumValue
    ∧ Client.getNetworkState (Util.enumFromString
        (fun _ t => if t = "install" then some 1 else if t = "no-filter" then some 1 else none))
      "bogus" = Except.error CodecError.UnknownEnumValue :=
  getters_fail_on_unknown_token
    (fun _ t => if t = "install" then some 1 else if t = "no-filter" then some 1 else none)
    "install;bogus" "none;bogus" "bogus" "bogus"
    ⟨"bogus", by decide, by decide⟩ ⟨"bogus", by decide, by decide⟩
    ⟨"bogus", by decide, by decide⟩ (by decide)

/-- C5: when every token of the reply decodes, `getActions` is the bitwise OR of the decoded
tokens and `getGroups` the set of the decoded tokens; a reply with the same tokens in another
order or with repetitions gives the same results. -/
theorem getActions_getGroups_union {ε : Type}
    (dec : String → String → String → Except ε Nat) (valA valG : String → Nat)
    (wA wG : String)
    (hA : ∀ t ∈ QString.split wA ';', dec t "Action" "Action" = Except.ok (valA t))
    (hG : ∀ t ∈ QString.split wG ';', dec t "Group" "Group" = Except.ok (valG t)) :
    Client.getActions dec wA
        = Except.ok (((QString.split wA ';').map valA).foldl (fun acc v => acc ||| v) 0)
    ∧ Client.getGroups dec wG = Except.ok ((QString.split wG ';').map valG).toFinset
    ∧ (∀ wA' : String, (∀ t, t ∈ QString.split wA' ';' ↔ t ∈ QString.split wA ';') →
        Client.getActions dec wA' = Client.getActions dec wA)
    ∧ (∀ wG' : String, (∀ t, t ∈ QString.split wG' ';' ↔ t ∈ QString.split wG ';') →
        Client.getGroups dec wG' = Client.getGroups dec wG) := by
  have actions : ∀ w : String,
      (∀ t ∈ QString.split w ';', dec t "Action" "Action" = Except.ok (valA t)) →
      Client.getActions dec w
        = Except.ok (((QString.split w ';').map valA).foldl (fun acc v => acc ||| v) 0) := by
    intro w hw
    have e := foldlM_decode_ok (fun t => dec t "Action" "Action") valA
      (fun acc v => acc ||| v) (QString.split w ';') 0 hw
    rw [List.foldl_map]
    exact e
  have groups : ∀ w : String,
      (∀ t ∈ QString.split w ';', dec t "Group" "Group" = Except.ok (valG t)) →
      Client.getGroups dec w = Except.ok ((QString.split w ';').map valG).toFinset := by
    intro w hw
    have e := foldlM_decode_ok (fun t => dec t "Group" "Group") valG
      (fun acc v => insert v acc) (QString.split w ';') (∅ : Finset Nat) hw
    have e2 := foldl_insert_eq ((QString.split w ';').map valG) ∅
    rw [List.foldl_map, Finset.empty_union] at e2
    rw [← e2]
    exact e
  refine ⟨actions wA hA, groups wG hG, ?_, ?_⟩
  · intro wA' hsame
    rw [actions wA hA, actions wA' (fun t ht => hA t ((hsame t).mp ht))]
    congr 1
    apply foldl_lor_congr
    intro v
    simp only [List.mem_map]
    constructor
    · rintro ⟨t, ht, rfl⟩; exact ⟨t, (hsame t).mp ht, rfl⟩
    · rintro ⟨t, ht, rfl⟩; exact ⟨t, (hsame t).mpr ht, rfl⟩
  · intro wG' hsame
    rw [groups wG hG, groups wG' (fun t ht => hG t ((hsame t).mp ht))]
    congr 1
    ext v
    simp only [List.mem_toFinset, List.mem_map]
    constructor
    · rintro ⟨t, ht, rfl⟩; exact ⟨t, (hsame t).mp ht, rfl⟩
    · rintro ⟨t, ht, rfl⟩; exact ⟨t, (hsame t).mpr ht, rfl⟩

/-- C5 at the replies `"install;remove"` and `"install;install"`, with a decoder that gives
`"install"` the value `1` and every other token the value `2`. -/
theorem getActions_getGroups_union_witness :
    (∀ t ∈ QString.split "install;remove" ';',
      (fun t _ _ => Except.ok (if t = "install" then 1 else 2) :
          String → String → String → Except Unit Nat) t "Action" "Action"
        = Except.ok ((fun t => if t = "install" then 1 else 2) t))
    ∧ Client.getActions
        (fun t _ _ => Except.ok (if t = "install" then 1 else 2) :
          String → String → String → Except Unit Nat)
        "install;remove" = Except.ok 3
    ∧ Client.getGroups
        (fun t _ _ => Except.ok (if t = "install" then 1 else 2) :
          String → String → String → Except Unit Nat)
        "install;install" = Except.ok {1}
    ∧ Client.getActions
        (fun t _ _ => Except.ok (if t = "install" then 1 else 2) :
          String → String → String → Except Unit Nat)
        "remove;install;remove"
      = Client.getActions
        (fun t _ _ => Except.ok (if t = "install" then 1 else 2) :
          String → String → String → Except Unit Nat)
        "install;remove" :=
  have h := getActions_getGroups_union
    (fun t _ _ => Except.ok (if t = "install" then 1 else 2) :
      String → String → String → Except Unit Nat)
    (fun t => if t = "install" then 1 else 2) (fun t => if t = "install" then 1 else 2)
    "install;remove" "install;install" (fun _ _ => rfl) (fun _ _ => rfl)
  ⟨fun _ _ => rfl, h.1, h.2.1, h.2.2.1 "remove;install;remove" (by
    have e1 : QString.split "remove;install;remove" ';' = ["remove", "install", "remove"] := by
      decide
    have e2 : QString.split "install;remove" ';' = ["install", "remove"] := by decide
    intro t
    rw [e1, e2]
    simp only [List.mem_cons, List.mem_singleton, List.not_mem_nil, or_false]
    tauto)⟩

theorem createNewTransaction_none (daemon : Nat → Option String) (s : ClientState)
    (h : (ClientPrivate.createNewTransaction daemon s).1 = none) :
    ClientPrivate.createNewTransaction daemon s
      = (none, { s with requests := s.requests + 1, trace := s.trace ++ [Effect.createTransaction] }) := by
  unfold ClientPrivate.createNewTransaction at h ⊢
  cases hd : daemon s.requests with
  | none => rfl
  | some tid => rw [hd] at h; cases h

theorem createNewTransaction_some (daemon : Nat → Option String) (s : ClientState) (t : Transaction)
    (h : (ClientPrivate.createNewTransaction daemon s).1 = some t) :
    t.handle = s.requests ∧
    ClientPrivate.createNewTransaction daemon s
      = (some t, { s with requests := s.requests + 1, trace := s.trace ++ [Effect.createTransaction] }) := by
  unfold ClientPrivate.createNewTransaction at h ⊢
  cases hd : daemon s.requests with
  | none => rw [hd] at h; cases h
  | some tid =>
    rw [hd] at h
    simp only [Option.some.injEq] at h
    subst h
    exact ⟨rfl, rfl⟩

/-- The loop of `getDetails` over the packages, as one update of the state. -/
theorem foldl_packageMapInsert (t : Transaction) (l : List Package) (s : ClientState) :
    l.foldl (fun s p => TransactionPrivate.packageMapInsert t p.id p s) s
      = { s with
          packageMap := Function.update s.packageMap t.handle
            (l.foldl (fun m p => QMap.insert p.id p m) (s.packageMap t.handle))
          trace := s.trace ++ l.map (fun p => Effect.packageMapInsert t.handle p.id p) } := by
  induction l generalizing s with
  | nil => simp
  | cons x xs ih =>
    rw [List.foldl_cons, ih]
    simp [TransactionPrivate.packageMapInsert]

/-- Lookup in a map after a run of inserts: the last inserted package with that id, else
the old entry. -/
theorem foldl_insert_lookup (l : List Package) (m : QMap) (k : String) :
    (l.foldl (fun m p => QMap.insert p.id p m) m) k
      = match l.reverse.find? (fun q => decide (q.id = k)) with
        | some p => some p
        | none => m k := by
  induction l generalizing m with
  | nil => simp
  | cons x xs ih =>
    rw [List.foldl_cons, ih, List.reverse_cons, List.find?_append]
    cases hf : xs.reverse.find? (fun q => decide (q.id = k)) with
    | some p => simp
    | none =>
      by_cases hk : x.id = k
      · simp [QMap.insert, hk]
      · have hk' : ¬ k = x.id := fun e => hk e.symm
        simp [QMap.insert, hk, hk']

theorem roleCalls_append (a b : List Effect) : roleCalls (a ++ b) = roleCalls a ++ roleCalls b := by
  induction a with
  | nil => rfl
  | cons e es ih => cases e <;> simp [roleCalls, ih]

theorem roleHandles_append (a b : List Effect) :
    roleHandles (a ++ b) = roleHandles a ++ roleHandles b := by
  induction a with
  | nil => rfl
  | cons e es ih => cases e <;> simp [roleHandles, ih]

theorem createRequests_append (a b : List Effect) :
    createRequests (a ++ b) = createRequests a + createRequests b := by
  induction a with
  | nil => simp [createRequests]
  | cons e es ih => cases e <;> simp [createRequests, ih]; omega

theorem roleCalls_inserts (h : Nat) (l : List Package) :
    roleCalls (l.map (fun p => Effect.packageMapInsert h p.id p)) = [] := by
  induction l with
  | nil => rfl
  | cons x xs ih => simp [roleCalls, ih]

theorem roleHandles_inserts (h : Nat) (l : List Package) :
    roleHandles (l.map (fun p => Effect.packageMapInsert h p.id p)) = [] := by
  induction l with
  | nil => rfl
  | cons x xs ih => simp [roleHandles, ih]

theorem createRequests_inserts (h : Nat) (l : List Package) :
    createRequests (l.map (fun p => Effect.packageMapInsert h p.id p)) = 0 := by
  induction l with
  | nil => rfl
  | cons x xs ih => simp [createRequests, ih]

/-- One successful call: what it appends to the trace. -/
theorem call_success (u : Util) (daemon : Nat → Option String) (op : Op) (s : ClientState)
    (t : Transaction) (h : (ClientPrivate.createNewTransaction daemon s).1 = some t) :
    (Client.call u daemon op s).1 = some t
    ∧ (Client.call u daemon op s).2.requests = s.requests + 1
    ∧ ∃ new c, (Client.call u daemon op s).2.trace = s.trace ++ new
        ∧ createRequests new = 1 ∧ roleCalls new = [(t.handle, c)]
        ∧ roleHandles new = [t.handle] := by
  obtain ⟨_, hc⟩ := createNewTransaction_some daemon s t h
  cases op
  case getDetails packages =>
    refine ⟨by simp [Client.call, Client.getDetails, hc], ?_, ?_⟩
    · simp [Client.call, Client.getDetails, hc, foldl_packageMapInsert, TransactionProxy.call,
        ClientState.log]
    · refine ⟨Effect.createTransaction ::
          (packages.map (fun p => Effect.packageMapInsert t.handle p.id p)
            ++ [Effect.roleCall t.handle (RoleCall.GetDetails (u.packageListToPids packages))]),
        RoleCall.GetDetails (u.packageListToPids packages), ?_, ?_, ?_, ?_⟩
      · simp [Client.call, Client.getDetails, hc, foldl_packageMapInsert, TransactionProxy.call,
          ClientState.log]
      · simp [createRequests, createRequests_append, createRequests_inserts]
      · simp [roleCalls, roleCalls_append, roleCalls_inserts]
      · simp [roleHandles, roleHandles_append, roleHandles_inserts]
  all_goals
    refine ⟨by simp [Client.call, Client.acceptEula, Client.downloadPackages, Client.getDepends, Client.getDetails, Client.getFiles, Client.getOldTransactions, Client.getPackages, Client.getRepoList, Client.getRequires, Client.getUpdateDetail, Client.getUpdates, Client.getDistroUpgrades, Client.installFiles, Client.installPackages, Client.installSignature, Client.refreshCache, Client.removePackages, Client.repoEnable, Client.repoSetData, Client.resolve, Client.rollback, Client.searchFile, Client.searchDetails, Client.searchGroup, Client.searchName, Client.updatePackages, Client.updateSystem, Client.whatProvides, hc], by simp [Client.call, Client.acceptEula, Client.downloadPackages, Client.getDepends, Client.getDetails, Client.getFiles, Client.getOldTransactions, Client.getPackages, Client.getRepoList, Client.getRequires, Client.getUpdateDetail, Client.getUpdates, Client.getDistroUpgrades, Client.installFiles, Client.installPackages, Client.installSignature, Client.refreshCache, Client.removePackages, Client.repoEnable, Client.repoSetData, Client.resolve, Client.rollback, Client.searchFile, Client.searchDetails, Client.searchGroup, Client.searchName, Client.updatePackages, Client.updateSystem, Client.whatProvides, hc, TransactionProxy.call, ClientState.log], ?_⟩
    simp [Client.call, Client.acceptEula, Client.downloadPackages, Client.getDepends, Client.getDetails, Client.getFiles, Client.getOldTransactions, Client.getPackages, Client.getRepoList, Client.getRequires, Client.getUpdateDetail, Client.getUpdates, Client.getDistroUpgrades, Client.installFiles, Client.installPackages, Client.installSignature, Client.refreshCache, Client.removePackages, Client.repoEnable, Client.repoSetData, Client.resolve, Client.rollback, Client.searchFile, Client.searchDetails, Client.searchGroup, Client.searchName, Client.updatePackages, Client.updateSystem, Client.whatProvides, hc, TransactionProxy.call, ClientState.log, roleCalls, roleHandles, createRequests]

/-- One failed call: what it returns and what it appends to the trace. -/
theorem call_failure (u : Util) (daemon : Nat → Option String) (op : Op) (s : ClientState)
    (h : (ClientPrivate.createNewTransaction daemon s).1 = none) :
    (Client.call u daemon op s).1 = none
    ∧ (Client.call u daemon op s).2.requests = s.requests + 1
    ∧ (Client.call u daemon op s).2.locale = s.locale
    ∧ (Client.call u daemon op s).2.trace
        = s.trace ++ [Effect.createTransaction, Effect.daemonError DaemonError.DaemonUnreachable] := by
  have hc := createNewTransaction_none daemon s h
  cases op <;>
    simp [Client.call, Client.acceptEula, Client.downloadPackages, Client.getDepends, Client.getDetails, Client.getFiles, Client.getOldTransactions, Client.getPackages, Client.getRepoList, Client.getRequires, Client.getUpdateDetail, Client.getUpdates, Client.getDistroUpgrades, Client.installFiles, Client.installPackages, Client.installSignature, Client.refreshCache, Client.removePackages, Client.repoEnable, Client.repoSetData, Client.resolve, Client.rollback, Client.searchFile, Client.searchDetails, Client.searchGroup, Client.searchName, Client.updatePackages, Client.updateSystem, Client.whatProvides, hc, Client.emitDaemonError, ClientState.log]

/-- The handles that received a role call stay distinct and below the request counter. -/
theorem call_preserves_distinct (u : Util) (daemon : Nat → Option String) (op : Op)
    (s : ClientState) (hlt : ∀ h ∈ roleHandles s.trace, h < s.requests)
    (hnd : (roleHandles s.trace).Nodup) :
    (∀ h ∈ roleHandles (Client.call u daemon op s).2.trace, h < (Client.call u daemon op s).2.requests)
    ∧ (roleHandles (Client.call u daemon op s).2.trace).Nodup := by
  cases hcr : (ClientPrivate.createNewTransaction daemon s).1 with
  | none =>
    obtain ⟨_, hreq, _, htr⟩ := call_failure u daemon op s hcr
    have hrh : roleHandles (Client.call u daemon op s).2.trace = roleHandles s.trace := by
      rw [htr, roleHandles_append]; simp [roleHandles]
    rw [hrh, hreq]
    exact ⟨fun h hh => Nat.lt_succ_of_lt (hlt h hh), hnd⟩
  | some t =>
    obtain ⟨hh, _⟩ := createNewTransaction_some daemon s t hcr
    obtain ⟨_, hreq, new, c, htr, _, _, hrh⟩ := call_success u daemon op s t hcr
    have hrh2 : roleHandles (Client.call u daemon op s).2.trace
        = roleHandles s.trace ++ [s.requests] := by
      rw [htr, roleHandles_append, hrh, hh]
    rw [hrh2, hreq]
    constructor
    · intro h hmem
      rcases List.mem_append.mp hmem with h1 | h1
      · exact Nat.lt_succ_of_lt (hlt h h1)
      · rw [List.mem_singleton.mp h1]; exact Nat.lt_succ_self _
    · rw [List.nodup_append]
      refine ⟨hnd, List.nodup_singleton _, ?_⟩
      intro a ha hb
      rw [List.mem_singleton.mp hb] at ha
      exact Nat.lt_irrefl _ (hlt _ ha)

/-- Over a sequence of calls no transaction receives two role calls. -/
theorem run_preserves_distinct (u : Util) (daemon : Nat → Option String) (ops : List Op)
    (s : ClientState) (hlt : ∀ h ∈ roleHandles s.trace, h < s.requests)
    (hnd : (roleHandles s.trace).Nodup) :
    (roleHandles (Client.run u daemon ops s).2.trace).Nodup := by
  induction ops generalizing s with
  | nil => exact hnd
  | cons op ops ih =>
    obtain ⟨h1, h2⟩ := call_preserves_distinct u daemon op s hlt hnd
    exact ih (Client.call u daemon op s).2 h1 h2

/-- C1: when creating the transaction fails, every transaction function returns no
transaction, emits `daemonError(DaemonUnreachable)` exactly once and calls no role method:
the call appends the request and that one signal to the trace, and nothing else. -/
theorem failed_creation_reports_unreachable (u : Util) (daemon : Nat → Option String) (op : Op)
    (s : ClientState) (h : (ClientPrivate.createNewTransaction daemon s).1 = none) :
    (Client.call u daemon op s).1 = none
    ∧ (Client.call u daemon op s).2.trace
        = s.trace ++ [Effect.createTransaction, Effect.daemonError DaemonError.DaemonUnreachable]
    ∧ daemonErrors ((Client.call u daemon op s).2.trace.drop s.trace.length)
        = [DaemonError.DaemonUnreachable]
    ∧ roleCalls ((Client.call u daemon op s).2.trace.drop s.trace.length) = [] := by
  obtain ⟨hr, _, _, ht⟩ := call_failure u daemon op s h
  refine ⟨hr, ht, ?_, ?_⟩
  · rw [ht, List.drop_left]; rfl
  · rw [ht, List.drop_left]; rfl

/-- C1 at `installPackages` of one package on a fresh client with an unreachable daemon. -/
theorem failed_creation_reports_unreachable_witness :
    (ClientPrivate.createNewTransaction (fun _ => none) ClientState.initial).1 = none
    ∧ (Client.call ⟨fun _ => "", fun l => l.map Package.id, fun _ _ _ => ""⟩ (fun _ => none)
        (Op.installPackages [⟨"vim;1.0;x86_64;repo", ""⟩]) ClientState.initial).1 = none
    ∧ (Client.call ⟨fun _ => "", fun l => l.map Package.id, fun _ _ _ => ""⟩ (fun _ => none)
        (Op.installPackages [⟨"vim;1.0;x86_64;repo", ""⟩]) ClientState.initial).2.trace
      = [Effect.createTransaction, Effect.daemonError DaemonError.DaemonUnreachable] :=
  have h := failed_creation_reports_unreachable
    ⟨fun _ => "", fun l => l.map Package.id, fun _ _ _ => ""⟩ (fun _ => none)
    (Op.installPackages [⟨"vim;1.0;x86_64;repo", ""⟩]) ClientState.initial rfl
  ⟨rfl, h.1, h.2.1⟩

/-- C2, refuted as stated: on a fresh client with an unreachable daemon `updateSystem` fails
to create its transaction and `getLastError` changes from unassigned to `DaemonUnreachable`. -/
theorem updateSystem_failure_changes_lastError :
    (ClientPrivate.createNewTransaction (fun _ => none) ClientState.initial).1 = none
    ∧ Client.getLastError ClientState.initial = none
    ∧ Client.getLastError (Client.updateSystem (fun _ => none) ClientState.initial).2
        = some DaemonError.DaemonUnreachable :=
  ⟨rfl, rfl, rfl⟩

/-- C2, amended: a call that fails to create its transaction leaves the stored locale as it
was; every function other than `updateSystem` also leaves the value of `getLastError` as it
was, and `updateSystem` sets it to `DaemonUnreachable`. -/
theorem failed_creation_frame (u : Util) (daemon : Nat → Option String) (op : Op)
    (s : ClientState) (h : (ClientPrivate.createNewTransaction daemon s).1 = none) :
    (Client.call u daemon op s).2.locale = s.locale
    ∧ (op ≠ Op.updateSystem →
        Client.getLastError (Client.call u daemon op s).2 = Client.getLastError s)
    ∧ (op = Op.updateSystem →
        Client.getLastError (Client.call u daemon op s).2 = some DaemonError.DaemonUnreachable) := by
  have hc := createNewTransaction_none daemon s h
  cases op <;>
    simp [Client.call, Client.acceptEula, Client.downloadPackages, Client.getDepends, Client.getDetails, Client.getFiles, Client.getOldTransactions, Client.getPackages, Client.getRepoList, Client.getRequires, Client.getUpdateDetail, Client.getUpdates, Client.getDistroUpgrades, Client.installFiles, Client.installPackages, Client.installSignature, Client.refreshCache, Client.removePackages, Client.repoEnable, Client.repoSetData, Client.resolve, Client.rollback, Client.searchFile, Client.searchDetails, Client.searchGroup, Client.searchName, Client.updatePackages, Client.updateSystem, Client.whatProvides, hc, Client.emitDaemonError, ClientState.log, Client.getLastError]

/-- C2 amended, at `updatePackages` on a client with locale `"de_DE"` and an unreachable
daemon. -/
theorem failed_creation_frame_witness :
    (ClientPrivate.createNewTransaction (fun _ => none)
        (Client.setLocale "de_DE" ClientState.initial)).1 = none
    ∧ (Client.call ⟨fun _ => "", fun l => l.map Package.id, fun _ _ _ => ""⟩ (fun _ => none)
        (Op.updatePackages []) (Client.setLocale "de_DE" ClientState.initial)).2.locale = "de_DE"
    ∧ Client.getLastError
        (Client.call ⟨fun _ => "", fun l => l.map Package.id, fun _ _ _ => ""⟩ (fun _ => none)
          (Op.updatePackages []) (Client.setLocale "de_DE" ClientState.initial)).2 = none :=
  have h := failed_creation_frame
    ⟨fun _ => "", fun l => l.map Package.id, fun _ _ _ => ""⟩ (fun _ => none)
    (Op.updatePackages []) (Client.setLocale "de_DE" ClientState.initial) rfl
  ⟨rfl, h.1, h.2.1 (by decide)⟩

/-- C7: when creating the transaction succeeds, every transaction function makes exactly one
request for a transaction, issues exactly one role call, on the transaction that request
produced, and returns that transaction; `searchName` issues `SearchName` with the encoded
filters first and the search string second; and over any sequence of calls on a new client
no transaction receives two role calls. -/
theorem one_role_call_on_fresh_transaction (u : Util) (daemon : Nat → Option String) (op : Op)
    (s : ClientState) (t : Transaction)
    (h : (ClientPrivate.createNewTransaction daemon s).1 = some t) :
    (Client.call u daemon op s).1 = some t
    ∧ t.handle = s.requests
    ∧ createRequests ((Client.call u daemon op s).2.trace.drop s.trace.length) = 1
    ∧ (∃ c, roleCalls ((Client.call u daemon op s).2.trace.drop s.trace.length) = [(t.handle, c)])
    ∧ (∀ search filters,
        roleCalls ((Client.searchName u daemon search filters s).2.trace.drop s.trace.length)
          = [(t.handle, RoleCall.SearchName (u.filtersToString filters) search)])
    ∧ (∀ filters, u.filtersToString filters = "installed" →
        roleCalls ((Client.searchName u daemon "vim" filters s).2.trace.drop s.trace.length)
          = [(t.handle, RoleCall.SearchName "installed" "vim")])
    ∧ (∀ ops, (roleHandles (Client.run u daemon ops ClientState.initial).2.trace).Nodup) := by
  obtain ⟨hh, hc⟩ := createNewTransaction_some daemon s t h
  obtain ⟨hr, _, new, c, htr, hcr, hrc, _⟩ := call_success u daemon op s t h
  have hsn : ∀ search filters,
      roleCalls ((Client.searchName u daemon search filters s).2.trace.drop s.trace.length)
        = [(t.handle, RoleCall.SearchName (u.filtersToString filters) search)] := by
    intro search filters
    simp [Client.searchName, hc, TransactionProxy.call, ClientState.log, roleCalls]
  refine ⟨hr, hh, ?_, ⟨c, ?_⟩, hsn, ?_, ?_⟩
  · rw [htr, List.drop_left]; exact hcr
  · rw [htr, List.drop_left]; exact hrc
  · intro filters hf
    rw [hsn "vim" filters, hf]
  · intro ops
    exact run_preserves_distinct u daemon ops ClientState.initial
      (fun h hm => by simp [ClientState.initial, roleHandles] at hm)
      (by simp [ClientState.initial, roleHandles])

/-- C7 at `searchName("vim", 2)` on a new client, where the daemon answers `"/1_abc"` and the
filter value `2` encodes as `"installed"`. -/
theorem one_role_call_on_fresh_transaction_witness :
    (ClientPrivate.createNewTransaction (fun _ => some "/1_abc") ClientState.initial).1
        = some ⟨0, "/1_abc"⟩
    ∧ (Client.call
        ⟨fun f => if f = 2 then "installed" else "", fun l => l.map Package.id, fun _ _ _ => ""⟩
        (fun _ => some "/1_abc") (Op.searchName "vim" 2) ClientState.initial).1
        = some ⟨0, "/1_abc"⟩
    ∧ roleCalls (Client.searchName
        ⟨fun f => if f = 2 then "installed" else "", fun l => l.map Package.id, fun _ _ _ => ""⟩
        (fun _ => some "/1_abc") "vim" 2 ClientState.initial).2.trace
        = [(0, RoleCall.SearchName "installed" "vim")] :=
  have h := one_role_call_on_fresh_transaction
    ⟨fun f => if f = 2 then "installed" else "", fun l => l.map Package.id, fun _ _ _ => ""⟩
    (fun _ => some "/1_abc") (Op.searchName "vim" 2) ClientState.initial ⟨0, "/1_abc"⟩ rfl
  ⟨rfl, h.1, h.2.2.2.2.2.1 2 rfl⟩

/-- C8: each single-object overload returns the same result and leaves the same state (the
same signals, requests and role calls in the trace) as its plural function called with the
one-element list and the same remaining arguments, whatever the daemon answers. -/
theorem singular_forwards_to_plural (u : Util) (daemon : Nat → Option String)
    (sop : SingularOp) (s : ClientState) :
    Client.callSingular u daemon sop s = Client.call u daemon sop.plural s := by
  cases sop <;> rfl

/-- C10: when creating the transaction succeeds and the helper lists the ids in order,
`getDetails` returns the new transaction, first writes every package under its id into that
transaction's package map and then issues the one `GetDetails` call with the ids in list
order; afterwards an id outside the list has its old entry, an id of the list maps to the
last package of the list with that id, and the maps of other transactions are untouched. -/
theorem getDetails_records_then_calls (u : Util) (daemon : Nat → Option String)
    (packages : List Package) (s : ClientState) (t : Transaction)
    (h : (ClientPrivate.createNewTransaction daemon s).1 = some t)
    (hp : u.packageListToPids packages = packages.map Package.id) :
    (Client.getDetails u daemon packages s).1 = some t
    ∧ (Client.getDetails u daemon packages s).2.trace
        = s.trace ++ [Effect.createTransaction]
          ++ packages.map (fun p => Effect.packageMapInsert t.handle p.id p)
          ++ [Effect.roleCall t.handle (RoleCall.GetDetails (packages.map Package.id))]
    ∧ (∀ k, k ∉ packages.map Package.id →
        (Client.getDetails u daemon packages s).2.packageMap t.handle k
          = s.packageMap t.handle k)
    ∧ (∀ k, k ∈ packages.map Package.id → ∃ p ∈ packages, p.id = k
        ∧ (Client.getDetails u daemon packages s).2.packageMap t.handle k = some p
        ∧ packages.reverse.find? (fun q => decide (q.id = k)) = some p)
    ∧ (∀ h', h' ≠ t.handle →
        (Client.getDetails u daemon packages s).2.packageMap h' = s.packageMap h') := by
  obtain ⟨_, hc⟩ := createNewTransaction_some daemon s t h
  have hmap : ∀ k, (Client.getDetails u daemon packages s).2.packageMap t.handle k
      = match packages.reverse.find? (fun q => decide (q.id = k)) with
        | some p => some p
        | none => s.packageMap t.handle k := by
    intro k
    rw [← foldl_insert_lookup]
    simp [Client.getDetails, hc, foldl_packageMapInsert, TransactionProxy.call, ClientState.log]
  refine ⟨?_, ?_, ?_, ?_, ?_⟩
  · simp [Client.getDetails, hc]
  · simp [Client.getDetails, hc, foldl_packageMapInsert, TransactionProxy.call, ClientState.log, hp]
  · intro k hk
    rw [hmap k]
    have hn : packages.reverse.find? (fun q => decide (q.id = k)) = none := by
      rw [List.find?_eq_none]
      intro q hq hqk
      exact hk (List.mem_map.mpr ⟨q, List.mem_reverse.mp hq, by simpa using hqk⟩)
    rw [hn]
  · intro k hk
    cases hf : packages.reverse.find? (fun q => decide (q.id = k)) with
    | none =>
      exfalso
      obtain ⟨q, hq, hqk⟩ := List.mem_map.mp hk
      rw [List.find?_eq_none] at hf
      exact hf q (List.mem_reverse.mpr hq) (by simpa using hqk)
    | some p =>
      refine ⟨p, List.mem_reverse.mp (List.mem_of_find?_eq_some hf), ?_, ?_, rfl⟩
      · simpa using List.find?_some hf
      · rw [hmap k, hf]
  · intro h' hne
    simp [Client.getDetails, hc, foldl_packageMapInsert, TransactionProxy.call, ClientState.log,
      Function.update_noteq hne]

/-- C10 at two packages that share the id `"a;1;x;r"`, on a new client whose daemon answers
`"/1_abc"`: the id maps to the second package, and the two writes precede the role call. -/
theorem getDetails_records_then_calls_witness :
    (ClientPrivate.createNewTransaction (fun _ => some "/1_abc") ClientState.initial).1
        = some ⟨0, "/1_abc"⟩
    ∧ (Client.getDetails ⟨fun _ => "", fun l => l.map Package.id, fun _ _ _ => ""⟩
        (fun _ => some "/1_abc") [⟨"a;1;x;r", "first"⟩, ⟨"a;1;x;r", "second"⟩]
        ClientState.initial).2.trace
        = [Effect.createTransaction,
           Effect.packageMapInsert 0 "a;1;x;r" ⟨"a;1;x;r", "first"⟩,
           Effect.packageMapInsert 0 "a;1;x;r" ⟨"a;1;x;r", "second"⟩,
           Effect.roleCall 0 (RoleCall.GetDetails ["a;1;x;r", "a;1;x;r"])]
    ∧ (Client.getDetails ⟨fun _ => "", fun l => l.map Package.id, fun _ _ _ => ""⟩
        (fun _ => some "/1_abc") [⟨"a;1;x;r", "first"⟩, ⟨"a;1;x;r", "second"⟩]
        ClientState.initial).2.packageMap 0 "a;1;x;r" = some ⟨"a;1;x;r", "second"⟩ :=
  have h := getDetails_records_then_calls
    ⟨fun _ => "", fun l => l.map Package.id, fun _ _ _ => ""⟩
    (fun _ => some "/1_abc") [⟨"a;1;x;r", "first"⟩, ⟨"a;1;x;r", "second"⟩]
    ClientState.initial ⟨0, "/1_abc"⟩ rfl rfl
  ⟨rfl, h.2.1, by
    obtain ⟨p, _, _, hm, hl⟩ := h.2.2.2.1 "a;1;x;r" (by decide)
    rw [hm, ← hl]
    decide⟩

/-- The connection after the open attempt of a lookup. -/
theorem database_fields (canOpen : Bool) (conn : QSqlDatabase) :
    (QSqlDatabase.database canOpen conn).isOpen = (conn.isOpen || canOpen)
    ∧ (QSqlDatabase.database canOpen conn).execOk = conn.execOk
    ∧ (QSqlDatabase.database canOpen conn).rows = conn.rows := by
  unfold QSqlDatabase.database
  cases h : conn.isOpen <;> simp [h]

/-- C6: the desktop-file lookup is a total point lookup. With the store open at the check
of the call (it was open, or the open attempt of the call succeeds) and the query running,
the result is the package made from the package column of the first row whose filename is
the path; in every other case it is `NULL`. So it is `NULL` exactly when the store is not
open, the query cannot be executed, or no row has that filename. Rows
`[("/x.desktop", "pkg-1.0")]` give id `"pkg-1.0"`. A store that neither the constructor nor
the lookup can open gives `NULL` for every path and stays closed; a store the constructor
opened, or one the lookup manages to open, is searched. -/
theorem searchFromDesktopFile_lookup (canOpen : Bool) (conn : QSqlDatabase) (path : String) :
    (Client.searchFromDesktopFile canOpen conn path).1
        = (if (conn.isOpen || canOpen) && conn.execOk then
            (conn.rows.find? (fun r => decide (r.1 = path))).map (fun r => Package.ofId r.2)
          else none)
    ∧ ((Client.searchFromDesktopFile canOpen conn path).1 = none ↔
        ((QSqlDatabase.database canOpen conn).isOpen = false ∨ conn.execOk = false
          ∨ ∀ r ∈ conn.rows, r.1 ≠ path))
    ∧ (∀ p, (Client.searchFromDesktopFile canOpen conn path).1 = some p ↔
        ∃ r, (QSqlDatabase.database canOpen conn).isOpen = true ∧ conn.execOk = true
          ∧ conn.rows.find? (fun r => decide (r.1 = path)) = some r ∧ p = Package.ofId r.2)
    ∧ ((Client.searchFromDesktopFile false ⟨true, true, [("/x.desktop", "pkg-1.0")]⟩
          "/x.desktop").1.map Package.id = some "pkg-1.0")
    ∧ (Client.searchFromDesktopFile canOpen conn path).2 = QSqlDatabase.database canOpen conn
    ∧ (QSqlDatabase.database canOpen conn).isOpen = (conn.isOpen || canOpen)
    ∧ (∀ (execOk : Bool) (rows : List (String × String)),
        Client.searchFromDesktopFile false
            (Client.instance false (Process.initial execOk rows)).2.db path
          = (none, (Client.instance false (Process.initial execOk rows)).2.db))
    ∧ ((Client.searchFromDesktopFile false
          (Client.instance true (Process.initial true [("/x.desktop", "pkg-1.0")])).2.db
          "/x.desktop").1.map Package.id = some "pkg-1.0")
    ∧ ((Client.searchFromDesktopFile true
          (Client.instance false (Process.initial true [("/x.desktop", "pkg-1.0")])).2.db
          "/x.desktop").1.map Package.id = some "pkg-1.0") := by
  obtain ⟨hopen, hexec, hrows⟩ := database_fields canOpen conn
  have hfilter : ∀ rows : List (String × String),
      (match rows.filter (fun r => decide (r.1 = path)) with
        | [] => (none, QSqlDatabase.database canOpen conn)
        | r :: _ => (some (Package.ofId r.2), QSqlDatabase.database canOpen conn))
      = ((rows.find? (fun r => decide (r.1 = path))).map (fun r => Package.ofId r.2),
          QSqlDatabase.database canOpen conn) := by
    intro rows
    induction rows with
    | nil => rfl
    | cons x xs ih =>
      by_cases hx : x.1 = path
      · simp [List.filter_cons, List.find?_cons, hx]
      · simp only [List.filter_cons, List.find?_cons, hx, decide_False]
        exact ih
  have hpair : Client.searchFromDesktopFile canOpen conn path
        = ((if (conn.isOpen || canOpen) && conn.execOk then
            (conn.rows.find? (fun r => decide (r.1 = path))).map (fun r => Package.ofId r.2)
          else none), QSqlDatabase.database canOpen conn) := by
    unfold Client.searchFromDesktopFile
    simp only [hopen, hexec, hrows, hfilter]
    cases ho : (conn.isOpen || canOpen) <;> cases he : conn.execOk <;> simp
  have hmain := congrArg Prod.fst hpair
  simp only at hmain
  refine ⟨hmain, ?_, ?_, by decide, congrArg Prod.snd hpair, hopen, ?_, by decide, by decide⟩
  · rw [hmain, hopen]
    cases ho : (conn.isOpen || canOpen) <;> cases he : conn.execOk <;>
      simp [List.find?_eq_none]
  · intro p
    rw [hmain, hopen]
    cases ho : (conn.isOpen || canOpen)
    · simp
    · cases he : conn.execOk
      · simp
      · simp only [Bool.and_self, if_true, true_and]
        cases hf : conn.rows.find? (fun r => decide (r.1 = path)) with
        | none => simp
        | some r =>
          simp only [Option.map_some', Option.some.injEq]
          constructor
          · intro e; exact ⟨r, rfl, e.symm⟩
          · rintro ⟨r', hr, hp⟩; rw [hr, hp]
  · intro execOk rows
    simp [Client.searchFromDesktopFile, QSqlDatabase.database, Client.instance, Client.Client,
      Process.initial]

/-- With the static pointer set, `instance` constructs nothing and returns that pointer. -/
theorem instances_of_some (os : List Bool) (p : Process) (c : Nat)
    (h : p.m_instance = some c) :
    Client.instances os p = (List.replicate os.length c, p) := by
  induction os with
  | nil => rfl
  | cons o os ih =>
    have e : Client.instance o p = (c, p) := by simp [Client.instance, h]
    simp [Client.instances, e, ih, List.replicate_succ]

/-- C9: over any sequence of `instance()` calls from the start of the process every call
returns the pointer of the first call, the number of `Client` objects and of `DaemonProxy`
objects constructed is one once a call was made (none before), and the static pointer then
holds that one client. -/
theorem instance_constructs_once (opens : List Bool) (execOk : Bool)
    (rows : List (String × String)) :
    (Client.instances opens (Process.initial execOk rows)).1 = List.replicate opens.length 0
    ∧ (Client.instances opens (Process.initial execOk rows)).2.clients.length
        = min opens.length 1
    ∧ (Client.instances opens (Process.initial execOk rows)).2.daemonProxies
        = min opens.length 1
    ∧ (Client.instances opens (Process.initial execOk rows)).2.m_instance
        = (if opens = [] then none else some 0)
    ∧ (∀ (o : Bool) (p : Process) (c : Nat), p.m_instance = some c →
        Client.instance o p = (c, p)) := by
  have hlater : ∀ (o : Bool) (p : Process) (c : Nat), p.m_instance = some c →
      Client.instance o p = (c, p) := by
    intro o p c h
    simp [Client.instance, h]
  cases opens with
  | nil => exact ⟨rfl, rfl, rfl, rfl, hlater⟩
  | cons o os =>
    have e := instances_of_some os (Client.instance o (Process.initial execOk rows)).2 0 rfl
    refine ⟨?_, ?_, ?_, ?_, hlater⟩
    · simp only [Client.instances, e]
      rfl
    · simp only [Client.instances, e]
      simp [Client.instance, Client.Client, Process.initial]
    · simp only [Client.instances, e]
      simp [Client.instance, Client.Client, Process.initial]
    · simp only [Client.instances, e]
      simp [Client.instance, Client.Client, Process.initial]
end PackageKit
